import Mathlib

/-!
Verification of the UDP change-data-capture pipeline (capture / archive / stage).

This file gives a shallow embedding, in Lean, of the parts of the Python source
that the verified claims are about:

* `cdc_select.py` - generation of the CDC extraction SELECT statement
  (class `SelectCDC`);
* `cdc_merge.py` - generation of the MERGE upsert statement (class `MergeCDC`);
* `capture.py` - the per-table watermark state machine (`TableHistory`,
  `JobHistory`, `CaptureDaemon.process_table`, `CaptureDaemon.main`) and the
  fixed-size batching loop;
* `archive.py` - the landing-to-archive move (`ArchiveDaemon.archive_capture_file`,
  `ArchiveDaemon.update_stage_arrival_queue`);
* `blobstore.py` - the `ensure_connected` decorator and the blob operations;
* `stage.py` - the staged application of a package
  (`StageDaemon.stage_file`, `StageDaemon.process_next_file_to_stage`).

Python f-string templates (the `expand` helper in `common.py` evaluates a
template as an f-string over the caller locals) are embedded as Lean string
interpolation functions: the literal text of each template is reproduced and
the placeholder positions take the corresponding argument.  Timestamps are
embedded as a six-field record rendered the way `str(datetime)` renders a
whole-second datetime (`YYYY-MM-DD HH:MM:SS`).  File systems and blob stores
are association lists from names to contents.  External collaborators (the
source-database cursor, the resource files with per-platform SQL fragments)
enter as explicit parameters.
-/

namespace Udp

/-! ## String primitives

The embedding implements its own character-level string operations (splitting,
trimming, lowercasing, digit parsing, joining) so that every definition in the
file evaluates by kernel reduction on concrete inputs.  Each is the exact
semantics of the Python primitive it stands for. -/

/-- Splitting on a character predicate, as Python `str.split(sep)` for a
one-character separator: `splitPredAux p cs acc` accumulates the current item
in reverse. -/
def splitPredAux (p : Char → Bool) : List Char → List Char → List String
  | [], acc => [String.mk acc.reverse]
  | x :: xs, acc =>
    if p x then String.mk acc.reverse :: splitPredAux p xs []
    else splitPredAux p xs (x :: acc)

/-- Split a string at every character satisfying `p`, keeping empty items. -/
def splitPred (p : Char → Bool) (s : String) : List String :=
  splitPredAux p s.data []

/-- Split a string at every occurrence of the character `c`, keeping empty
items (Python `text.split(c)` and single-character `str.splitOn`). -/
def splitChar (c : Char) (s : String) : List String :=
  splitPred (fun x => x = c) s

/-- Join strings with a separator (Python `sep.join(items)`). -/
def joinSep (sep : String) : List String → String
  | [] => ""
  | [x] => x
  | x :: xs => x ++ sep ++ joinSep sep xs

/-- Python whitespace characters relevant to this code base. -/
def isSpaceChar (c : Char) : Bool :=
  c = ' ' || c = '\t' || c = '\n' || c = '\r'

/-- Python `str.strip()`. -/
def strTrim (s : String) : String :=
  String.mk (((s.data.dropWhile isSpaceChar).reverse.dropWhile isSpaceChar).reverse)

/-- ASCII lowercasing of one character (Python `str.lower()` on the
identifiers and settings this code base manipulates). -/
def chLower (c : Char) : Char :=
  if 'A' ≤ c ∧ c ≤ 'Z' then Char.ofNat (c.toNat + 32) else c

/-- Python `str.lower()`. -/
def strLower (s : String) : String :=
  String.mk (s.data.map chLower)

/-- Python `str.startswith(prefix)` for a one-character prefix. -/
def startsWithChar (c : Char) (s : String) : Bool :=
  s.data.head? = some c

/-- Python `int(text)` on an unsigned decimal literal: `none` stands for the
`ValueError` raised when the text is empty or not all digits. -/
def parseNat (s : String) : Option Nat :=
  if s.data = [] then none
  else
    s.data.foldl
      (fun acc? c =>
        match acc? with
        | none => none
        | some a => if '0' ≤ c ∧ c ≤ '9' then some (a * 10 + (c.toNat - 48)) else none)
      (some 0)

/-- Does `text` contain `pattern` as a contiguous substring? -/
def containsSub (pattern : List Char) : List Char → Bool
  | [] => pattern.isPrefixOf []
  | c :: rest => pattern.isPrefixOf (c :: rest) || containsSub pattern rest

/-- Substring occurrence on strings (Python `pattern in text`). -/
def strContains (text pattern : String) : Bool :=
  containsSub pattern.data text.data

/-! ## Helpers from `common.py` -/

/-- Embedding of `common.split(items)` with the default delimiters `", "`:
the text is split on commas and spaces, runs of delimiters are compressed and
leading and trailing delimiters are stripped, so no empty items are produced. -/
def split (items : String) : List String :=
  (splitPred (fun c => c = ',' || c = ' ') items).filter fun t => t ≠ ""

/-- Embedding of `common.spaces(n)`: a string of `n` spaces. -/
def spaces (n : Nat) : String :=
  String.mk (List.replicate n ' ')

/-- Embedding of `common.delete_blank_lines(text)`: drop every line that is
empty after stripping whitespace, and re-join with newlines. -/
def delete_blank_lines (text : String) : String :=
  joinSep "\n" ((splitChar '\n' text).filter fun line => strTrim line ≠ "")

/-- Embedding of `common.just_file_name(path_name)`: the part of the path after
the last slash (`pathlib.Path(path_name).name`). -/
def just_file_name (path_name : String) : String :=
  (splitChar '/' path_name).getLastD path_name

/-- Embedding of `common.just_file_stem(path_name)`: the file name without its
last extension (`pathlib.Path(path_name).stem`). -/
def just_file_stem (path_name : String) : String :=
  let fn := just_file_name path_name
  match splitChar '.' fn with
  | [] => fn
  | [x] => x
  | parts => joinSep "." parts.dropLast

/-- Zero-pad the decimal rendering of `n` to width `w`; embeds the Python
format specifications `{job_id:09}` and `{batch_number:04}`. -/
def padZero (w n : Nat) : String :=
  let s := toString n
  String.mk (List.replicate (w - s.length) '0') ++ s

/-! ## Datetimes

`capture.py` manipulates whole-second `datetime` values (the job snapshot is
truncated to an integer second).  We embed them as a six-field record; the
comparison used by `process_table` (`last_timestamp > current_timestamp`) is
the chronological order, embedded through the lexicographic key `dtKey`, and
rendering inside an f-string (`str(datetime)`) is `YYYY-MM-DD HH:MM:SS`. -/

structure DT where
  year : Nat
  month : Nat
  day : Nat
  hour : Nat
  minute : Nat
  second : Nat
deriving DecidableEq, Repr

/-- Lexicographic key of a datetime; each calendar field of a real datetime is
bounded by 100 except the year, so the key order is the chronological order. -/
def DT.key (t : DT) : Nat :=
  ((((t.year * 100 + t.month) * 100 + t.day) * 100 + t.hour) * 100 + t.minute) * 100
    + t.second

instance : LE DT := ⟨fun a b => a.key ≤ b.key⟩
instance : LT DT := ⟨fun a b => a.key < b.key⟩

instance (a b : DT) : Decidable (a ≤ b) := inferInstanceAs (Decidable (a.key ≤ b.key))
instance (a b : DT) : Decidable (a < b) := inferInstanceAs (Decidable (a.key < b.key))

/-- Rendering of a whole-second datetime inside an f-string, as done by
`str(datetime)`: `YYYY-MM-DD HH:MM:SS`. -/
def DT.str (t : DT) : String :=
  padZero 4 t.year ++ "-" ++ padZero 2 t.month ++ "-" ++ padZero 2 t.day ++ " " ++
    padZero 2 t.hour ++ ":" ++ padZero 2 t.minute ++ ":" ++ padZero 2 t.second

/-- The default first timestamp `iso_to_datetime('1900-01-01')` used by
`process_table` when a project configures no first timestamp. -/
def dt1900 : DT := ⟨1900, 1, 1, 0, 0, 0⟩

/-! ## Table descriptors

One record stands for the `table:` section object handed to `process_table`,
`SelectCDC` and `MergeCDC`.  The `where` configuration field is called
`whereCfg` because `where` is reserved in Lean; `first_timestamp` holds the
already-parsed `iso_to_datetime` value (`none` when the setting is blank). -/

structure TableObj where
  schema_name : String := ""
  table_name : String := ""
  column_names : List String := []
  cdc : String := ""
  timestamp : String := ""
  sequence : String := ""
  rowversion : String := ""
  rowhash : String := ""
  filehash : String := ""
  first_timestamp : Option DT := none
  first_sequence : Nat := 0
  join : String := ""
  whereCfg : String := ""
  order : String := ""
  primary_key : String := ""
  ignore_columns : String := ""
  ignore_table : Bool := false
  drop_table : Bool := false
  optional_table : Bool := false
deriving DecidableEq, Repr

/-! ## Embedding of `cdc_select.py` -/

/-- Embedding of `cdc_select.q(item)` for a single string: double-quote the
item unless it is already double-quoted. -/
def q (item : String) : String :=
  if startsWithChar '"' item then item else "\"" ++ item ++ "\""

/-- Python `column_name.partition(".")`: the part before the first dot and the
part after it. -/
def partitionDot (s : String) : String × String :=
  match splitChar '.' s with
  | [] => (s, "")
  | x :: xs => (x, joinSep "." xs)

/-- Embedding of `cdc_select.add_alias(column_name, table_alias)`: strip double
quotes, split off an explicit alias before a dot, and re-quote both parts. -/
def add_alias (column_name : String) (table_alias : String) : String :=
  let column_name := String.mk (column_name.data.filter fun c => c ≠ '"')
  if column_name.data.contains '.' then
    let (a, c) := partitionDot column_name
    q a ++ "." ++ q c
  else
    q table_alias ++ "." ++ q column_name

/-- Embedding of `cdc_select.add_aliases(column_names, table_alias)`. -/
def add_aliases (column_names : List String) (table_alias : String := "s") : List String :=
  column_names.map fun c => add_alias c table_alias

/-- The source-database engine collaborator used by `SelectCDC`: only
`timestamp_literal` is consulted during SQL synthesis (full-pull tables get a
database-generated literal as their load timestamp). -/
structure DbEngine where
  timestamp_literal : DT → String

namespace SelectCDC

/-- Embedding of `SelectCDC.column_names(self)`: alias-qualify and quote every
column name and join with commas.  (The `column_names == "*"` branch applies
only when the attribute is the literal string star; `process_table` always
assigns the discovered column list before synthesis.) -/
def column_names_str (t : TableObj) : String :=
  joinSep ", " (add_aliases t.column_names "s")

/-- Expansion of `SelectCDC.timestamp_where_template` after `indent`, as an
f-string over `timestamp_value`, `last_timestamp` and `current_timestamp`:

    (
    {timestamp_value} >= '{last_timestamp}' and
    {timestamp_value} < '{current_timestamp}'
    )
-/
def timestamp_where (timestamp_value last_timestamp current_timestamp : String) : String :=
  "(\n" ++ timestamp_value ++ " >= '" ++ last_timestamp ++ "' and\n" ++
    timestamp_value ++ " < '" ++ current_timestamp ++ "'\n)"

/-- Embedding of `SelectCDC.timestamp_logic`: returns the pair
`(timestamp_value, timestamp_where_condition)`.  With no timestamp column the
value is a database-generated literal and there is no CDC window; with one
column the value is that column; with several, a per-row `max` over the
columns.  The window condition is the expanded `timestamp_where_template`. -/
def timestamp_logic (engine : DbEngine) (t : TableObj)
    (current_timestamp : DT) (last_timestamp : DT) : String × String :=
  if t.timestamp = "" then
    (engine.timestamp_literal current_timestamp, "")
  else
    let timestamp_columns := add_aliases (split t.timestamp)
    let timestamp_value :=
      match timestamp_columns with
      | [c] => q c
      | cs =>
        let timestamp_values :=
          joinSep ", " (cs.map fun c => "(" ++ q c ++ ")")
        "(select max(\"v\") from (values " ++ timestamp_values ++ ") as value(\"v\"))"
    (timestamp_value,
      timestamp_where timestamp_value last_timestamp.str current_timestamp.str)

/-- Embedding of `SelectCDC.where_clause`: combine the optional free-text WHERE
with the CDC window condition. -/
def where_clause (t : TableObj) (timestamp_where_condition : String) : String :=
  if t.whereCfg = "" ∧ timestamp_where_condition = "" then ""
  else if t.whereCfg ≠ "" ∧ timestamp_where_condition = "" then
    "where\n" ++ spaces 4 ++ "(" ++ t.whereCfg ++ ")"
  else if t.whereCfg = "" ∧ timestamp_where_condition ≠ "" then
    "where\n" ++ spaces 4 ++ timestamp_where_condition
  else
    "where\n" ++ spaces 4 ++ "(" ++ t.whereCfg ++ ") and\n" ++ spaces 4 ++
      timestamp_where_condition

/-- Embedding of `SelectCDC.order_clause`. -/
def order_clause (t : TableObj) : String :=
  if t.order = "" then ""
  else "order by " ++ joinSep ", " (add_aliases (split t.order))

/-- Expansion of `SelectCDC.select_template` after `indent`, as an f-string:

    select
    {column_names},
    {job_id} as "udp_job",
    {timestamp_value} as "udp_timestamp"
    from "{schema_name}"."{table_name}" as "s"
    {join_clause}
    {where_clause}
    {order_clause}
-/
def select_template (column_names : String) (job_id : Nat)
    (timestamp_value schema_name table_name join_clause where_c order_c : String) :
    String :=
  "select\n" ++ column_names ++ ",\n" ++ toString job_id ++ " as \"udp_job\",\n" ++
    timestamp_value ++ " as \"udp_timestamp\"\nfrom \"" ++ schema_name ++ "\".\"" ++
    table_name ++ "\" as \"s\"\n" ++ join_clause ++ "\n" ++ where_c ++ "\n" ++ order_c

/-- Embedding of `SelectCDC.select(job_id, current_timestamp, last_timestamp)`
for a table with no free-text join (`join_clause` is empty when the `join`
setting is blank).  The `sequence_where_template` of the class is never
referenced by this method: the only window condition that can reach the
generated SQL is the timestamp one. -/
def select (engine : DbEngine) (t : TableObj) (job_id : Nat)
    (current_timestamp last_timestamp : DT) : String :=
  let (timestamp_value, timestamp_where_condition) :=
    timestamp_logic engine t current_timestamp last_timestamp
  let sql := select_template (column_names_str t) job_id timestamp_value
    t.schema_name t.table_name "" (where_clause t timestamp_where_condition)
    (order_clause t)
  delete_blank_lines (strTrim sql ++ ";")

end SelectCDC

/-! ## Embedding of `cdc_merge.py`

`cdc_merge.q`, `add_alias`, `add_aliases` and `indent` are textual duplicates
of the `cdc_select.py` helpers, so the embeddings above are shared. -/

/-- Python `definition.split()[0]`: the first whitespace-delimited word. -/
def firstWord (s : String) : String :=
  ((splitPred (fun c => c = ' ' || c = '\t') s).filter fun t => t ≠ "").headD ""

namespace MergeCDC

/-- Embedding of the `MergeCDC.__init__` extension step: append the column
name of every extended definition to `table.column_names` unless already
present. -/
def extend_columns (column_names : List String) (extended_definitions : List String) :
    List String :=
  extended_definitions.foldl
    (fun cols d =>
      let column_name := firstWord d
      if column_name ∈ cols then cols else cols ++ [column_name])
    column_names

/-- Embedding of `MergeCDC.column_names(self)`: quote every column and join
with commas. -/
def column_names_str (t : TableObj) : String :=
  joinSep ", " (t.column_names.map q)

/-- Embedding of `MergeCDC.source_column_names(self)`. -/
def source_column_names (t : TableObj) : String :=
  joinSep ", " (add_aliases t.column_names "s")

/-- The assignment line built for one column by `MergeCDC.column_assignments`:
six spaces of indentation, then `"t"."col" = "s"."col"`. -/
def assignment_line (column_name : String) : String :=
  spaces 6 ++ add_alias column_name "t" ++ " = " ++ add_alias column_name "s"

/-- Embedding of the output list built by `MergeCDC.column_assignments`: one
assignment per entry of `table.column_names`, in order. -/
def column_assignment_lines (t : TableObj) : List String :=
  t.column_names.map assignment_line

/-- Embedding of `MergeCDC.column_assignments(self)`: the assignment lines
joined with `,\n`. -/
def column_assignments (t : TableObj) : String :=
  joinSep ",\n" (column_assignment_lines t)

/-- Embedding of `MergeCDC.match_condition(nk)`: for every natural-key column
the equality `"t"."col"="s"."col"`, joined with `and`. -/
def match_condition (nk : String) : String :=
  joinSep " and "
    ((split nk).map fun nk_column => add_alias nk_column "t" ++ "=" ++ add_alias nk_column "s")

/-- Expansion of `MergeCDC.merge_template` after `indent`, as an f-string:

    -- s:source, t:target
    merge {schema_name}.{table_name} with (serializable) as t
     using {schema_name}._{table_name} as s
       on {match_condition}
     when matched then
       -- t.column1 = s.column1, ...
       update set
    {column_assignments}
     when not matched by target then
       insert
         -- (column1, column2, ...)
         ({column_names})
         values
         -- (s.column1, s.column2, ...)
         ({source_column_names});
-/
def merge_template (schema_name table_name match_c column_assignments_text
    column_names_text source_column_names_text : String) : String :=
  "-- s:source, t:target\n" ++
  "merge " ++ schema_name ++ "." ++ table_name ++ " with (serializable) as t\n" ++
  " using " ++ schema_name ++ "._" ++ table_name ++ " as s\n" ++
  "   on " ++ match_c ++ "\n" ++
  " when matched then\n" ++
  "   -- t.column1 = s.column1, ...\n" ++
  "   update set\n" ++
  column_assignments_text ++ "\n" ++
  " when not matched by target then\n" ++
  "   insert\n" ++
  "     -- (column1, column2, ...)\n" ++
  "     (" ++ column_names_text ++ ")\n" ++
  "     values\n" ++
  "     -- (s.column1, s.column2, ...)\n" ++
  "     (" ++ source_column_names_text ++ ");"

/-- Embedding of `MergeCDC.merge(schema_name, nk)` for a table object whose
column names have already been extended by `extend_columns` (the `__init__`
step). -/
def merge (t : TableObj) (schema_name nk : String) : String :=
  let sql := merge_template schema_name t.table_name (match_condition nk)
    (column_assignments t) (column_names_str t) (source_column_names t)
  delete_blank_lines (strTrim sql)

end MergeCDC

/-! ## Embedding of `capture.py` -/

/-- Rows produced by the source cursor: a list of column values.  `capture.py`
serializes each row as `list(row)`. -/
abbrev Row := List String

/-- Embedding of `common.is_glob_match(glob_pattern, text)` over `fnmatch`,
lowercasing both sides; the star and question-mark forms are supported
(character classes are not used by this code base). -/
def globMatch : List Char → List Char → Bool
  | [], [] => true
  | p :: ps, [] => p = '*' && globMatch ps []
  | [], _ :: _ => false
  | p :: ps, c :: cs =>
    if p = '*' then globMatch ps (c :: cs) || globMatch (p :: ps) cs
    else (p = '?' || p = c) && globMatch ps cs
termination_by ps cs => (ps.length, cs.length)

/-- Embedding of `common.is_glob_match` on strings. -/
def is_glob_match (glob_pattern text : String) : Bool :=
  globMatch (strLower glob_pattern).data (strLower text).data

/-- Association-list lookup used to embed Python dictionaries. -/
def lookupA {α : Type} : List (String × α) → String → Option α
  | [], _ => none
  | (k, v) :: rest, key => if k = key then some v else lookupA rest key

/-- Replace the binding of `key` in an association list (in-place dictionary
entry mutation). -/
def setA {α : Type} : List (String × α) → String → α → List (String × α)
  | [], _, _ => []
  | (k, v) :: rest, key, nv =>
    if k = key then (k, nv) :: rest else (k, v) :: setA rest key nv

/-- Embedding of `capture.TableHistory`: the per-table CDC cursor.  Fields
start as Python `None`; `last_sequence` is also treated as unset when `0`
(Python falsiness). -/
structure TableHistory where
  last_filehash : Option String := none
  last_rowhash : Option String := none
  last_rowversion : Option Nat := none
  last_sequence : Option Nat := none
  last_timestamp : Option DT := none
deriving DecidableEq, Repr

/-- Embedding of the persisted content of `capture.JobHistory` (the
`capture.job` state file): the job counter and the per-table watermarks. -/
structure JobHistoryData where
  job_id : Nat := 1
  tables : List (String × TableHistory) := []
deriving DecidableEq, Repr

namespace JobHistory

/-- Embedding of `JobHistory.load`: a missing (or, per §7 of the design,
corrupt) state file initializes the object with default values. -/
def load (file_state : Option JobHistoryData) : JobHistoryData :=
  match file_state with
  | none => {}
  | some obj => { job_id := obj.job_id, tables := obj.tables }

/-- Embedding of `JobHistory.save(is_maintenance)`: increment `job_id` unless
in maintenance mode, then persist the whole object. -/
def save (jh : JobHistoryData) (is_maintenance : Bool) : JobHistoryData :=
  let jh := if ¬is_maintenance then { jh with job_id := jh.job_id + 1 } else jh
  jh

/-- Embedding of `JobHistory.get_table_history(table_name)`: look the table up
under its lowercased name, creating a zero-valued entry on first access. -/
def get_table_history (jh : JobHistoryData) (table_name : String) :
    TableHistory × JobHistoryData :=
  let n := strLower table_name
  match lookupA jh.tables n with
  | some h => (h, jh)
  | none => ({}, { jh with tables := jh.tables ++ [(n, ({} : TableHistory))] })

end JobHistory

/-- Embedding of the `cursor.fetchmany(batch_size)` loop of
`CaptureDaemon.process_table`: repeatedly take `batch_size` rows until the
cursor is exhausted (an empty fetch breaks the loop).  The structural fuel is
an upper bound on the number of fetches; `fetchBatches` supplies the row count,
which always suffices for a positive batch size. -/
def fetchBatchesAux (batch_size : Nat) : Nat → List Row → List (List Row)
  | 0, _ => []
  | _, [] => []
  | fuel + 1, r :: rest =>
    if batch_size = 0 then []
    else (r :: rest).take batch_size ::
      fetchBatchesAux batch_size fuel ((r :: rest).drop batch_size)

/-- The batch list produced by the fetch loop for one table. -/
def fetchBatches (batch_size : Nat) (rows : List Row) : List (List Row) :=
  fetchBatchesAux batch_size rows.length rows

/-- Per-table data coming back from the source-database collaborator during
one job: the discovered schema (column names; `none` when the table does not
exist), the discovered primary key, the current sequence value, and the rows
the extraction cursor yields. -/
structure TableEnv where
  table_schema : Option (List String) := none
  pk_columns : String := ""
  current_sequence : Nat := 0
  rows : List Row := []

/-- Job-level context of `CaptureDaemon.process_table`: source schema name,
the configured project batch size (`none` means unconfigured), the database
engine and the job id. -/
structure CaptureCtx where
  schema_name : String := ""
  batch_size_cfg : Option Nat := none
  engine : DbEngine
  job_id : Nat := 1

/-- Outcome of one `process_table` call: the updated (in-memory) watermark,
whether extraction ran, the half-open CDC window `(last, current)` handed to
`SelectCDC.select`, the generated SQL, and the written batch files with their
row counts. -/
structure ProcessResult where
  hist : TableHistory
  extracted : Bool := false
  window : Option (DT × DT) := none
  sql : Option String := none
  batch_files : List (String × Nat) := []
  row_count : Nat := 0
deriving Repr

/-- Embedding of `CaptureDaemon.process_table`.  The steps mirror the source
order: skip `default`, ignored and drop-marked tables; initialize
`last_timestamp` from `first_timestamp` (default `1900-01-01`) when unset; skip
future-dated tables; initialize `last_sequence`; skip missing tables; remove
ignored columns; fall back to the configured primary key; normalize and clear
the CDC setting; build the SELECT; batch the cursor; finally set the watermark
to the job snapshot and sequence ceiling only after the extraction loop. -/
def process_table (ctx : CaptureCtx) (table_name : String) (t : TableObj)
    (hist : TableHistory) (env : TableEnv) (current_timestamp : DT)
    (current_sequence : Nat) : ProcessResult :=
  if table_name = "default" ∨ t.ignore_table ∨ t.drop_table then { hist := hist }
  else
    -- initialize table history last time stamp to first timestamp if not set yet
    let first_ts := t.first_timestamp.getD dt1900
    let hist :=
      if hist.last_timestamp = none then { hist with last_timestamp := some first_ts }
      else hist
    let last_timestamp := hist.last_timestamp.getD dt1900
    -- skip table if last timestamp > current timestamp
    if current_timestamp < last_timestamp then { hist := hist }
    else
      -- initialize last_sequence to first_sequence if not set yet
      let hist :=
        if hist.last_sequence = none ∨ hist.last_sequence = some 0 then
          { hist with last_sequence := some t.first_sequence }
        else hist
      match env.table_schema with
      | none => { hist := hist }   -- table not found: skipped
      | some schema_columns =>
        -- remove ignored columns (argument order as in the source call site)
        let column_names := schema_columns.filter fun c =>
          ¬ (split t.ignore_columns).any fun pattern => is_glob_match c pattern
        -- discovered PK with fallback to the configured key
        let pk_columns :=
          if env.pk_columns = "" ∧ t.primary_key ≠ "" then t.primary_key
          else env.pk_columns
        -- normalize cdc setting
        let cdc := strLower t.cdc
        let cdc := if cdc = "none" then "" else cdc
        let cdc :=
          if cdc ≠ "" ∧ cdc ∉ ["filehash", "rowhash", "rowversion", "sequence", "timestamp"]
          then "" else cdc
        let cdc := if cdc ≠ "" ∧ cdc ≠ "filehash" ∧ pk_columns = "" then "" else cdc
        let t :=
          if cdc = "" then
            { t with cdc := cdc, filehash := "", rowhash := "", rowversion := "",
                     sequence := "", timestamp := "" }
          else { t with cdc := cdc }
        let t := { t with schema_name := ctx.schema_name, table_name := table_name,
                          column_names := column_names }
        let sql := SelectCDC.select ctx.engine t ctx.job_id current_timestamp last_timestamp
        let batch_size := ctx.batch_size_cfg.getD 250000
        let batches := fetchBatches batch_size env.rows
        let batch_files := batches.enum.map fun p =>
          (table_name ++ "#" ++ padZero 4 (p.1 + 1) ++ ".json", p.2.length)
        -- update table history with new last timestamp and sequence values
        let hist := { hist with last_timestamp := some current_timestamp,
                                last_sequence := some current_sequence }
        { hist := hist, extracted := true,
          window := some (last_timestamp, current_timestamp), sql := some sql,
          batch_files := batch_files,
          row_count := (batches.map List.length).sum }

/-- Embedding of the per-table loop of `CaptureDaemon.main`: fetch the current
sequence only for `cdc == 'sequence'` tables, call `process_table`, and fold
the mutated watermark back into the job history. -/
def run_extraction (ctx : CaptureCtx) (envOf : String → TableEnv)
    (current_timestamp : DT) : List (String × TableObj) → JobHistoryData →
    JobHistoryData
  | [], jh => jh
  | (table_name, t) :: rest, jh =>
    let (hist, jh) := JobHistory.get_table_history jh table_name
    let current_sequence :=
      if t.cdc = "sequence" then (envOf table_name).current_sequence else 0
    let r := process_table ctx table_name t hist (envOf table_name)
      current_timestamp current_sequence
    let jh := { jh with tables := setA jh.tables (strLower table_name) r.hist }
    run_extraction ctx envOf current_timestamp rest jh

/-- Embedding of the job-history persistence behavior of
`CaptureDaemon.main`: load the state file, run the extraction, and save the
incremented job history only when the job reaches the watermark-advance step
with transfer enabled.  `abort_before_advance` stands for any unhandled
exception raised before the `job_history.save()` call (the `except` clause
re-raises and nothing else writes the state file), and `notransfer` for the
`--notransfer` option guarding the save. -/
def capture_main (ctx : CaptureCtx) (tables : List (String × TableObj))
    (envOf : String → TableEnv) (current_timestamp : DT)
    (file_state : Option JobHistoryData) (notransfer : Bool)
    (abort_before_advance : Bool) : Option JobHistoryData :=
  let jh := JobHistory.load file_state
  let jh := run_extraction ctx envOf current_timestamp tables jh
  if abort_before_advance then file_state
  else if notransfer then file_state
  else some (JobHistory.save jh false)

/-! ## Embedding of `blobstore.py`

A blob container and a local folder are association lists from names to file
contents.  Copying a file overwrites any previous content under the same
name, so `put` and `get` use `upsertA`; `delete` uses `removeA`. -/

/-- Remove every binding of `key` (deleting a file). -/
def removeA {α : Type} (l : List (String × α)) (key : String) : List (String × α) :=
  l.filter fun p => p.1 ≠ key

/-- Overwrite the binding of `key` (copying a file over a destination). -/
def upsertA {α : Type} (l : List (String × α)) (key : String) (v : α) :
    List (String × α) :=
  removeA l key ++ [(key, v)]

/-- Connection state of a `BlobStore` object: `resource` is `none` after
`disconnect()` or before any `connect()`, and `resource_name` is the
diagnostic label used in the `ensure_connected` error message. -/
structure BlobStoreConn where
  resource : Option String := none
  resource_name : String := ""

/-- Embedding of the `ensure_connected` decorator: with a non-empty resource
the wrapped method body runs; otherwise the error is logged and a
`ConnectionError` is raised to the caller, embedded as `Except.error` carrying
the logged message. -/
def ensure_connected {α : Type} (bs : BlobStoreConn) (method_name : String)
    (f : Unit → α) : Except String α :=
  match bs.resource with
  | some _ => Except.ok (f ())
  | none =>
    Except.error ("Resource not connected (" ++ bs.resource_name ++ "): " ++ method_name)

/-- Body of `BlobStore.get` (connected case): download a blob to a local file,
reporting `False` when the blob does not exist. -/
def blob_get_core (container local_fs : List (String × String))
    (target_file_name blob_name : String) : Bool × List (String × String) :=
  match lookupA container blob_name with
  | none => (false, local_fs)
  | some content => (true, upsertA local_fs target_file_name content)

/-- Body of `BlobStore.put` (connected case): upload a local file to a blob,
reporting `False` when the source file does not exist. -/
def blob_put_core (local_fs container : List (String × String))
    (source_file_name blob_name : String) : Bool × List (String × String) :=
  match lookupA local_fs source_file_name with
  | none => (false, container)
  | some content => (true, upsertA container blob_name content)

/-- Body of `BlobStore.delete` (connected case). -/
def blob_delete_core (container : List (String × String)) (blob_name : String) :
    Bool × List (String × String) :=
  match lookupA container blob_name with
  | none => (false, container)
  | some _ => (true, removeA container blob_name)

/-- Body of `BlobStore.list` (connected case): the sorted blob names matching
the glob pattern (an empty pattern lists the container root; a pattern that
names a logical folder lists that folder). -/
def blob_list_core (container : List (String × String)) (glob_pattern : String) :
    List String :=
  let glob_pattern :=
    if glob_pattern = "" then "*"
    else if container.any fun p => (glob_pattern ++ "/").data.isPrefixOf p.1.data then
      glob_pattern ++ "/*"
    else glob_pattern
  ((container.map fun p => p.1).filter fun n => is_glob_match glob_pattern n).mergeSort
    (fun a b => a ≤ b)

/-- Body of `BlobStore.clear` (connected case). -/
def blob_clear_core (_container : List (String × String)) :
    Bool × List (String × String) :=
  (true, [])

/-- `BlobStore.get` with its `ensure_connected` guard. -/
def BlobStore.get (bs : BlobStoreConn) (container local_fs : List (String × String))
    (target_file_name blob_name : String) :
    Except String (Bool × List (String × String)) :=
  ensure_connected bs "BlobStore.get()" fun _ =>
    blob_get_core container local_fs target_file_name blob_name

/-- `BlobStore.put` with its `ensure_connected` guard. -/
def BlobStore.put (bs : BlobStoreConn) (local_fs container : List (String × String))
    (source_file_name blob_name : String) :
    Except String (Bool × List (String × String)) :=
  ensure_connected bs "BlobStore.put()" fun _ =>
    blob_put_core local_fs container source_file_name blob_name

/-- `BlobStore.delete` with its `ensure_connected` guard. -/
def BlobStore.delete (bs : BlobStoreConn) (container : List (String × String))
    (blob_name : String) : Except String (Bool × List (String × String)) :=
  ensure_connected bs "BlobStore.delete()" fun _ =>
    blob_delete_core container blob_name

/-- `BlobStore.list` with its `ensure_connected` guard. -/
def BlobStore.list (bs : BlobStoreConn) (container : List (String × String))
    (glob_pattern : String) : Except String (List String) :=
  ensure_connected bs "BlobStore.list()" fun _ =>
    blob_list_core container glob_pattern

/-- `BlobStore.clear` with its `ensure_connected` guard. -/
def BlobStore.clear (bs : BlobStoreConn) (container : List (String × String)) :
    Except String (Bool × List (String × String)) :=
  ensure_connected bs "BlobStore.clear()" fun _ =>
    blob_clear_core container

/-! ## Embedding of `archive.py` -/

/-- State touched by `ArchiveDaemon.archive_capture_file`: the landing and
archive containers, the local work folder, the `stat_log` rows, and the
`stage_arrival_queue` rows `(archive_file_name, job_id)`. -/
structure ArchiveState where
  landing : List (String × String) := []
  archive : List (String × String) := []
  work : List (String × String) := []
  stat_log : List String := []
  arrival_queue : List (String × Nat) := []
deriving Repr

/-- Embedding of the job-id parse in `ArchiveDaemon.update_stage_arrival_queue`:
`int(just_file_stem(capture_file_name).split('#')[1])`.  `none` stands for the
`ValueError` or `IndexError` the Python expression raises on a malformed
name. -/
def parse_job_id (capture_file_name : String) : Option Nat :=
  parseNat ((splitChar '#' (just_file_stem capture_file_name)).getD 1 "")

/-- Embedding of `ArchiveDaemon.update_stage_arrival_queue`: insert one row
`(archive_file_name, job_id)`; on a malformed name the `int()` call raises and
no row is inserted. -/
def update_stage_arrival_queue (st : ArchiveState) (capture_file_name : String) :
    ArchiveState :=
  match parse_job_id capture_file_name with
  | none => st
  | some job_id =>
    { st with arrival_queue := st.arrival_queue ++ [(capture_file_name, job_id)] }

/-- Embedding of `ArchiveDaemon.update_stat_log`: read the local copy of the
capture file and append the metric rows extracted from it.  The zip-member
extraction and jsonpickle decoding are collaborators, abstracted as the
`stat_rows` function from file content to rows. -/
def update_stat_log (st : ArchiveState) (stat_rows : String → List String)
    (capture_file_name : String) : ArchiveState :=
  match lookupA st.work capture_file_name with
  | none => st
  | some content => { st with stat_log := st.stat_log ++ stat_rows content }

/-- Embedding of `ArchiveDaemon.archive_capture_file` (both blob stores
connect successfully; the method ignores the boolean results of the blob
operations).  The steps mirror the source: clear the work folder, download the
landing blob to the work folder, post the stat log, upload the local copy to
the archive container under `<dataset>/<capture_file_name>`, delete the
landing blob to complete the move, and register the arrival-queue row. -/
def archive_capture_file (st : ArchiveState) (stat_rows : String → List String)
    (capture_file_name : String) : ArchiveState :=
  let st := { st with work := [] }
  let local_capture_file_name := "work/" ++ capture_file_name
  let st :=
    match lookupA st.landing capture_file_name with
    | none => st
    | some content =>
      { st with work := upsertA st.work local_capture_file_name content }
  let st := update_stat_log st stat_rows local_capture_file_name
  let dataset_name := (splitChar '#' capture_file_name).headD capture_file_name
  let archive_capture_file_name := dataset_name ++ "/" ++ capture_file_name
  let st :=
    match lookupA st.work local_capture_file_name with
    | none => st
    | some content =>
      { st with archive := upsertA st.archive archive_capture_file_name content }
  let st :=
    match lookupA st.landing capture_file_name with
    | none => st
    | some _ => { st with landing := removeA st.landing capture_file_name }
  update_stage_arrival_queue st capture_file_name

/-! ## Embedding of `stage.py`

A staged package is the unpacked content of one archived capture file: for
each table a `.table` artifact (the saved table object), possibly a `.schema`
artifact (the captured column list), a `.pk` artifact and the sorted batch
files.  The target database is embedded as the list of existing table names in
the dataset schema together with the trace of DDL/DML actions the applier
issues against it. -/

/-- One table artifact inside a staged package.  `obj` is the `.table` file
content (saved by `process_table` before CDC normalization), `schemaPresent`
and `schema_columns` stand for the `.schema` file, `pk` for the `.pk` file
content, and `batches` for the `<table>#NNNN.json` files in sorted order. -/
structure StageArtifact where
  name : String
  obj : TableObj := {}
  schemaPresent : Bool := true
  schema_columns : List String := []
  pk : String := ""
  batches : List (List Row) := []
deriving Repr

/-- One action issued by the stage applier against the target database. -/
inductive StageAction where
  | createSchema (dataset : String)
  | dropTable (dataset table_name : String)
  | createTable (dataset table_name : String)
  | bulkInsert (dataset table_name : String) (rows : List Row)
  | execSql (sql : String)
deriving DecidableEq, Repr

/-- Effect of one action on the set of existing target tables. -/
def applyStageAction (db : List String) : StageAction → List String
  | .dropTable _ t => db.filter fun n => n ≠ t
  | .createTable _ t => if t ∈ db then db else db ++ [t]
  | _ => db

/-- Effect of a list of actions on the set of existing target tables. -/
def applyStageActions (db : List String) (acts : List StageAction) : List String :=
  acts.foldl applyStageAction db

/-- The extended tracking column definitions of `StageDaemon.stage_file`:
`"udp_jobid int, udp_timestamp datetime2".split(",")`. -/
def extended_definitions : List String := ["udp_jobid int", " udp_timestamp datetime2"]

/-- Embedding of the per-table body of `StageDaemon.stage_file`.  Returns the
actions issued for this artifact and whether the loop over table artifacts
continues (`false` exactly for the drop-marked branch, whose `return`
statement leaves `stage_file` altogether).  The branches mirror the source:
skip when the schema file is missing; drop and stop on `drop_table`; drop and
fully reload when there is no CDC setting, the setting is `none`, or the table
has no primary key; otherwise create the target if absent, load all batches
into the temp table `_<name>` breaking on the first empty batch, run the merge
only when the loop completed without a break (`for ... else`), and drop the
temp table. -/
def stage_table (dataset : String) (db : List String) (a : StageArtifact) :
    List StageAction × Bool :=
  if ¬ a.schemaPresent then ([], true)
  else
    let t := { a.obj with table_name := a.name, column_names := a.schema_columns }
    let table_pk := strTrim a.pk
    if t.drop_table then ([StageAction.dropTable dataset a.name], false)
    else if t.cdc = "" ∨ strLower t.cdc = "none" ∨ table_pk = "" then
      ([StageAction.dropTable dataset a.name, StageAction.createTable dataset a.name] ++
        (a.batches.filter fun rows => rows ≠ []).map
          (StageAction.bulkInsert dataset a.name),
        true)
    else
      let temp_table_name := "_" ++ a.name
      let create_target :=
        if a.name ∈ db then [] else [StageAction.createTable dataset a.name]
      let inserts := (a.batches.takeWhile fun rows => rows ≠ []).map
        (StageAction.bulkInsert dataset temp_table_name)
      let merged := a.batches.all fun rows => rows ≠ []
      let t := { t with
        column_names := MergeCDC.extend_columns t.column_names extended_definitions }
      let merge_acts :=
        if merged then [StageAction.execSql (MergeCDC.merge t dataset table_pk)] else []
      (create_target ++
        [StageAction.dropTable dataset temp_table_name,
         StageAction.createTable dataset temp_table_name] ++
        inserts ++ merge_acts ++ [StageAction.dropTable dataset temp_table_name],
        true)

/-- Embedding of the loop of `StageDaemon.stage_file` over the sorted table
artifacts: each artifact is applied against the database state left by its
predecessors, and a `false` continuation (the drop-table `return`) ends the
whole package. -/
def stage_file_loop (dataset : String) (db : List String) :
    List StageArtifact → List StageAction × List String
  | [] => ([], db)
  | a :: rest =>
    let (acts, cont) := stage_table dataset db a
    let db := applyStageActions db acts
    if cont then
      let (acts2, db2) := stage_file_loop dataset db rest
      (acts ++ acts2, db2)
    else (acts, db)

/-- Embedding of `StageDaemon.stage_file` after the package has been fetched
and unpacked: create the dataset schema, then process the table artifacts. -/
def stage_file (dataset : String) (db : List String) (artifacts : List StageArtifact) :
    List StageAction × List String :=
  let (acts, db2) := stage_file_loop dataset db artifacts
  (StageAction.createSchema dataset :: acts, db2)

/-- Embedding of the job-id parse in `process_next_file_to_stage`:
`int(archive_file_name.split('.')[0].rsplit('#', 1)[-1])`; `none` stands for
the `ValueError` raised on a malformed name. -/
def stage_job_id (archive_file_name : String) : Option Nat :=
  parseNat ((splitChar '#' ((splitChar '.' archive_file_name).headD "")).getLastD "")

/-- Result of one `process_next_file_to_stage` poll: whether a file was
processed, the actions issued, and the new database, arrival-queue and
pending-queue states. -/
structure StageStepResult where
  processed : Bool
  actions : List StageAction := []
  db : List String
  arrival : List (String × Nat)
  pending : List String
deriving Repr

/-- Embedding of `StageDaemon.process_next_file_to_stage`: pop the first
arrival-queue row, stage the archived package it names, then delete that row
from the arrival and pending queues and post the next expected package name
`<dataset>#<job_id+1:09>.zip` to the pending queue.  The deletions run after
`stage_file` returns, whatever actions it issued.  `packages` maps an archive
blob name to the unpacked artifacts of that package. -/
def process_next_file_to_stage (packages : String → List StageArtifact)
    (db : List String) (arrival : List (String × Nat)) (pending : List String) :
    StageStepResult :=
  match arrival with
  | [] => { processed := false, db := db, arrival := arrival, pending := pending }
  | (archive_file_name, _) :: _ =>
    match stage_job_id archive_file_name with
    | none => { processed := false, db := db, arrival := arrival, pending := pending }
    | some job_id =>
      let dataset_name := (splitChar '#' archive_file_name).headD archive_file_name
      let archive_file_blob_name := dataset_name ++ "/" ++ archive_file_name
      let (acts, db2) := stage_file dataset_name db (packages archive_file_blob_name)
      let arrival2 := arrival.filter fun r => r.1 ≠ archive_file_name
      let pending2 := (pending.filter fun n => n ≠ archive_file_name) ++
        [dataset_name ++ "#" ++ padZero 9 (job_id + 1) ++ ".zip"]
      { processed := true, actions := acts, db := db2,
        arrival := arrival2, pending := pending2 }

/-! ## Concrete fixtures used by the claim theorems -/

/-- A concrete source-database engine: `timestamp_literal` renders the SQL
fragment the resource file provides for a datetime literal. -/
def testEngine : DbEngine :=
  ⟨fun t => "cast('" ++ t.str ++ "' as datetime2)"⟩

/-- A table configured with the `sequence` CDC strategy over the column
`seq_no`, as `process_table` receives it. -/
def seqTable : TableObj :=
  { schema_name := "dbo", table_name := "tickets",
    column_names := ["id", "seq_no", "amount"],
    cdc := "sequence", sequence := "seq_no" }

/-- Capture context for the sequence-table job. -/
def seqCtx : CaptureCtx := { schema_name := "dbo", engine := testEngine, job_id := 3 }

/-- Prior watermark of the sequence table: `last_sequence = 5`. -/
def seqHist : TableHistory :=
  { last_timestamp := some ⟨2024, 5, 1, 10, 0, 0⟩, last_sequence := some 5 }

/-- Source-database environment for the sequence table; the job fetched
`current_sequence = 10` as the shared ceiling. -/
def seqEnv : TableEnv :=
  { table_schema := some ["id", "seq_no", "amount"], pk_columns := "id",
    current_sequence := 10, rows := [] }

/-- The SELECT statement the code generates for `seqTable`. -/
def seqSql : String :=
  "select\n\"s\".\"id\", \"s\".\"seq_no\", \"s\".\"amount\",\n3 as \"udp_job\",\ncast('2024-05-02 10:00:00' as datetime2) as \"udp_timestamp\"\nfrom \"dbo\".\"tickets\" as \"s\";"

/-- A staged table object with four captured columns, as `stage_file` builds
it before handing it to `MergeCDC` (the extension step appends the tracking
columns). -/
def mergeTable : TableObj :=
  { table_name := "orders",
    column_names :=
      MergeCDC.extend_columns ["col1", "col2", "col3", "col4"] extended_definitions }

/-- A table configured with the `timestamp` CDC strategy over the column
`ts`. -/
def tsTable : TableObj :=
  { schema_name := "dbo", table_name := "orders", column_names := ["id", "ts"],
    cdc := "timestamp", timestamp := "ts" }

/-- Capture context for the timestamp-table job. -/
def tsCtx : CaptureCtx := { schema_name := "dbo", engine := testEngine, job_id := 1 }

/-- Source-database environment for the timestamp table. -/
def tsEnv : TableEnv :=
  { table_schema := some ["id", "ts"], pk_columns := "id",
    rows := [["1", "a"], ["2", "b"]] }

/-- Capture context with a configured project batch size of 2. -/
def c5Ctx : CaptureCtx :=
  { schema_name := "dbo", batch_size_cfg := some 2, engine := testEngine, job_id := 4 }

/-- A prior watermark for the batching run. -/
def c5Hist : TableHistory := { last_timestamp := some ⟨2024, 5, 1, 0, 0, 0⟩ }

/-- An extraction cursor yielding five rows. -/
def c5Env : TableEnv :=
  { table_schema := some ["id", "ts"], pk_columns := "id",
    rows := [["1", "a"], ["2", "b"], ["3", "c"], ["4", "d"], ["5", "e"]] }

/-- An archive-stage state whose landing container holds the package
`sales#000000007.zip` and whose arrival queue is empty. -/
def archSt : ArchiveState :=
  { landing := [("sales#000000007.zip", "zipbytes")] }

/-- A staged artifact configured `cdc=timestamp` whose `.pk` file is empty
(the source table had no discoverable primary key and none was configured;
capture saves the `.table` file before clearing the CDC setting). -/
def tsArtifactNoPk : StageArtifact :=
  { name := "orders", obj := { cdc := "timestamp", timestamp := "ts" },
    schema_columns := ["id", "ts"], pk := "", batches := [[["1", "x"]]] }

/-- A staged artifact marked for drop. -/
def dropArtifact : StageArtifact :=
  { name := "olddata", obj := { drop_table := true }, schema_columns := ["id"],
    pk := "id", batches := [] }

/-- A staged artifact with no CDC strategy (full-reload table). -/
def plainArtifact : StageArtifact :=
  { name := "zdata", obj := {}, schema_columns := ["id"], pk := "",
    batches := [[["1"]]] }

/-- A keyed `cdc=timestamp` artifact whose second batch file deserializes to
an empty row list. -/
def emptyBatchArtifact : StageArtifact :=
  { name := "orders", obj := { cdc := "timestamp", timestamp := "ts" },
    schema_columns := ["id", "ts"], pk := "id", batches := [[["1", "x"]], []] }

/-- A keyed `cdc=timestamp` artifact with only non-empty batches. -/
def mergeArtifact : StageArtifact :=
  { name := "orders", obj := { cdc := "timestamp", timestamp := "ts" },
    schema_columns := ["id", "ts"], pk := "id", batches := [[["1", "x"]]] }

/-! ## Helper lemmas -/

/-- The `get_table_history` accessor never touches the job counter. -/
theorem get_table_history_job_id (jh : JobHistoryData) (n : String) :
    (JobHistory.get_table_history jh n).2.job_id = jh.job_id := by
  unfold JobHistory.get_table_history
  cases h : lookupA jh.tables (strLower n) <;> simp [h]

/-- The extraction loop mutates only table watermarks, never the job
counter. -/
theorem run_extraction_job_id (ctx : CaptureCtx) (envOf : String → TableEnv) (ct : DT) :
    ∀ (ts : List (String × TableObj)) (jh : JobHistoryData),
      (run_extraction ctx envOf ct ts jh).job_id = jh.job_id := by
  intro ts
  induction ts with
  | nil => intro jh; rfl
  | cons p rest ih =>
    intro jh
    show (run_extraction ctx envOf ct (p :: rest) jh).job_id = jh.job_id
    unfold run_extraction
    rw [ih]
    exact get_table_history_job_id jh p.1

/-- The fetch loop yields nothing on an exhausted cursor. -/
theorem fetchBatchesAux_nil (B : Nat) (fuel : Nat) : fetchBatchesAux B fuel [] = [] := by
  cases fuel <;> rfl

/-- The batch row counts of the fetch loop sum to the cursor row count. -/
theorem fetchBatchesAux_sum (B : Nat) (hB : 0 < B) :
    ∀ (fuel : Nat) (rows : List Row), rows.length ≤ fuel →
      ((fetchBatchesAux B fuel rows).map List.length).sum = rows.length := by
  intro fuel
  induction fuel with
  | zero =>
    intro rows h
    rw [List.eq_nil_of_length_eq_zero (Nat.le_zero.mp h)]
    rfl
  | succ n ih =>
    intro rows h
    cases rows with
    | nil => rfl
    | cons r rest =>
      simp only [fetchBatchesAux]
      rw [if_neg (Nat.pos_iff_ne_zero.mp hB)]
      simp only [List.map_cons, List.sum_cons]
      rw [ih ((r :: rest).drop B)
        (by simp only [List.length_drop, List.length_cons] at h ⊢; omega)]
      simp only [List.length_take, List.length_drop, List.length_cons]
      omega

/-- The fetch loop writes exactly the ceiling of rows over batch size many
batches. -/
theorem fetchBatchesAux_length (B : Nat) (hB : 0 < B) :
    ∀ (fuel : Nat) (rows : List Row), rows.length ≤ fuel →
      (fetchBatchesAux B fuel rows).length = (rows.length + B - 1) / B := by
  intro fuel
  induction fuel with
  | zero =>
    intro rows h
    rw [List.eq_nil_of_length_eq_zero (Nat.le_zero.mp h)]
    simp only [fetchBatchesAux, List.length_nil]
    rw [Nat.div_eq_of_lt (by omega)]
  | succ n ih =>
    intro rows h
    cases rows with
    | nil =>
      simp only [fetchBatchesAux, List.length_nil]
      rw [Nat.div_eq_of_lt (by omega)]
    | cons r rest =>
      simp only [fetchBatchesAux]
      rw [if_neg (Nat.pos_iff_ne_zero.mp hB)]
      simp only [List.length_cons]
      rw [ih ((r :: rest).drop B)
        (by simp only [List.length_drop, List.length_cons] at h ⊢; omega)]
      simp only [List.length_drop, List.length_cons]
      rcases le_or_lt (rest.length + 1) B with hle | hgt
      · have hz : rest.length + 1 - B = 0 := by omega
        rw [hz]
        have e1 : (0 + B - 1) / B = 0 := Nat.div_eq_of_lt (by omega)
        have e2 : (rest.length + 1 + B - 1) / B = 1 :=
          Nat.div_eq_of_lt_le (by omega) (by omega)
        rw [e1, e2]
      · have hsplit : rest.length + 1 + B - 1 = (rest.length + 1 - B + B - 1) + B := by
          omega
        rw [hsplit, Nat.add_div_right _ hB]

/-- Every batch of the fetch loop except the last holds exactly the batch
size many rows. -/
theorem fetchBatchesAux_dropLast (B : Nat) (hB : 0 < B) :
    ∀ (fuel : Nat) (rows : List Row), rows.length ≤ fuel →
      ∀ b ∈ (fetchBatchesAux B fuel rows).dropLast, b.length = B := by
  intro fuel
  induction fuel with
  | zero =>
    intro rows h
    rw [List.eq_nil_of_length_eq_zero (Nat.le_zero.mp h)]
    intro b hb
    simp [fetchBatchesAux] at hb
  | succ n ih =>
    intro rows h
    cases rows with
    | nil => intro b hb; simp [fetchBatchesAux] at hb
    | cons r rest =>
      simp only [fetchBatchesAux]
      rw [if_neg (Nat.pos_iff_ne_zero.mp hB)]
      rcases le_or_lt (rest.length + 1) B with hle | hgt
      · have hdrop : (r :: rest).drop B = [] := by
          apply List.eq_nil_of_length_eq_zero
          simp only [List.length_drop, List.length_cons]
          omega
        rw [hdrop, fetchBatchesAux_nil]
        intro b hb
        simp at hb
      · have hlen : ((r :: rest).drop B).length = rest.length + 1 - B := by
          simp [List.length_drop]
        have hne : (r :: rest).drop B ≠ [] := by
          intro hcon
          rw [hcon] at hlen
          simp at hlen
          omega
        have hfuel : ((r :: rest).drop B).length ≤ n := by
          simp only [List.length_drop, List.length_cons] at h ⊢
          omega
        have hrec_ne : fetchBatchesAux B n ((r :: rest).drop B) ≠ [] := by
          cases hd : (r :: rest).drop B with
          | nil => exact absurd hd hne
          | cons x xs =>
            cases n with
            | zero =>
              rw [hd] at hfuel
              simp at hfuel
            | succ m =>
              simp only [fetchBatchesAux]
              rw [if_neg (Nat.pos_iff_ne_zero.mp hB)]
              simp
        rw [List.dropLast_cons_of_ne_nil hrec_ne]
        intro b hb
        rcases List.mem_cons.mp hb with hb1 | hb2
        · rw [hb1]
          simp only [List.length_take, List.length_cons]
          omega
        · exact ih ((r :: rest).drop B) hfuel b hb2

/-- A temporary staging table name never collides with its target name. -/
theorem underscore_ne (s : String) : ("_" ++ s) ≠ s := by
  intro h
  have hlen := congrArg (fun x => x.data.length) h
  simp [String.data_append] at hlen

/-- An artifact that is not a drop request lets the `stage_file` loop
continue. -/
theorem stage_table_continues (dataset : String) (db : List String) (a : StageArtifact)
    (h : ¬ (a.schemaPresent = true ∧ a.obj.drop_table = true)) :
    (stage_table dataset db a).2 = true := by
  unfold stage_table
  by_cases hs : a.schemaPresent = true
  · simp only [hs, not_true_eq_false, if_false, Bool.not_eq_true]
    have hd : a.obj.drop_table = false := by
      cases hdt : a.obj.drop_table
      · rfl
      · exact absurd ⟨hs, hdt⟩ h
    simp only [hd, Bool.false_eq_true, if_false]
    split <;> rfl
  · simp [hs]

/-- A drop-marked artifact issues one drop and stops the loop. -/
theorem stage_table_drop (dataset : String) (db : List String) (a : StageArtifact)
    (hs : a.schemaPresent = true) (hd : a.obj.drop_table = true) :
    stage_table dataset db a = ([StageAction.dropTable dataset a.name], false) := by
  simp [stage_table, hs, hd]

/-- A drop-marked artifact ends the package: the artifacts after it are never
reached, and the actions are those of the prefix followed by the one drop. -/
theorem stage_file_loop_append_stop (dataset : String) :
    ∀ (pre : List StageArtifact) (db : List String) (post : List StageArtifact)
      (d : StageArtifact),
      (∀ a ∈ pre, ¬ (a.schemaPresent = true ∧ a.obj.drop_table = true)) →
      d.schemaPresent = true → d.obj.drop_table = true →
      stage_file_loop dataset db (pre ++ d :: post) =
        stage_file_loop dataset db (pre ++ [d]) ∧
      (stage_file_loop dataset db (pre ++ [d])).1 =
        (stage_file_loop dataset db pre).1 ++ [StageAction.dropTable dataset d.name] := by
  intro pre
  induction pre with
  | nil =>
    intro db post d hpre hd hdrop
    constructor
    · show stage_file_loop dataset db (d :: post) = stage_file_loop dataset db [d]
      unfold stage_file_loop
      rw [stage_table_drop dataset db d hd hdrop]
      rfl
    · show (stage_file_loop dataset db [d]).1 = (stage_file_loop dataset db []).1 ++ _
      unfold stage_file_loop
      rw [stage_table_drop dataset db d hd hdrop]
      simp
  | cons a pre ih =>
    intro db post d hpre hd hdrop
    have hcont := stage_table_continues dataset db a (hpre a (List.mem_cons_self a pre))
    rcases hst : stage_table dataset db a with ⟨acts, cont⟩
    rw [hst] at hcont
    simp only at hcont
    subst hcont
    have ihr := ih (applyStageActions db acts) post d
      (fun x hx => hpre x (List.mem_cons_of_mem a hx)) hd hdrop
    constructor
    · show stage_file_loop dataset db (a :: (pre ++ d :: post)) =
        stage_file_loop dataset db (a :: (pre ++ [d]))
      unfold stage_file_loop
      rw [hst]
      simp only [if_true]
      rw [ihr.1]
    · show (stage_file_loop dataset db (a :: (pre ++ [d]))).1 =
        (stage_file_loop dataset db (a :: pre)).1 ++ _
      unfold stage_file_loop
      rw [hst]
      simp only [if_true]
      rw [ihr.2]
      simp [List.append_assoc]

/-- The actions of `stage_file` are the schema creation followed by the loop
actions. -/
theorem stage_file_actions (dataset : String) (db : List String)
    (arts : List StageArtifact) :
    (stage_file dataset db arts).1 =
      StageAction.createSchema dataset :: (stage_file_loop dataset db arts).1 := by
  unfold stage_file
  rcases h : stage_file_loop dataset db arts with ⟨acts, db2⟩
  rfl

/-- Unfolding step of the association-list lookup. -/
theorem lookupA_cons {α : Type} (p : String × α) (rest : List (String × α))
    (key : String) :
    lookupA (p :: rest) key = if p.1 = key then some p.2 else lookupA rest key := by
  rcases p with ⟨k, v⟩
  rfl

/-- Lookup misses a list none of whose keys is the target. -/
theorem lookupA_eq_none_of_ne {α : Type} (l : List (String × α)) (k : String)
    (h : ∀ p ∈ l, p.1 ≠ k) : lookupA l k = none := by
  induction l with
  | nil => rfl
  | cons p rest ih =>
    rw [lookupA_cons, if_neg (h p (List.mem_cons_self p rest))]
    exact ih fun x hx => h x (List.mem_cons_of_mem p hx)

/-- Lookup skips a prefix none of whose keys is the target. -/
theorem lookupA_append_of_ne {α : Type} (l1 l2 : List (String × α)) (k : String)
    (h : ∀ p ∈ l1, p.1 ≠ k) : lookupA (l1 ++ l2) k = lookupA l2 k := by
  induction l1 with
  | nil => rfl
  | cons p rest ih =>
    rw [List.cons_append, lookupA_cons, if_neg (h p (List.mem_cons_self p rest))]
    exact ih fun x hx => h x (List.mem_cons_of_mem p hx)

/-- A file just copied over a key is found under that key. -/
theorem lookupA_upsertA_self {α : Type} (l : List (String × α)) (k : String) (v : α) :
    lookupA (upsertA l k v) k = some v := by
  unfold upsertA
  rw [lookupA_append_of_ne]
  · simp [lookupA_cons]
  · intro p hp
    unfold removeA at hp
    exact of_decide_eq_true (List.mem_filter.mp hp).2

/-- A file just deleted under a key is no longer found. -/
theorem lookupA_removeA_self {α : Type} (l : List (String × α)) (k : String) :
    lookupA (removeA l k) k = none := by
  apply lookupA_eq_none_of_ne
  intro p hp
  unfold removeA at hp
  exact of_decide_eq_true (List.mem_filter.mp hp).2

/-- Normal form of `add_alias` on a column name that contains neither a dot
nor a double quote. -/
theorem add_alias_eq (ta c : String) (hdot : '.' ∉ c.data) (hq : '"' ∉ c.data)
    (hta : startsWithChar '"' ta = false) :
    add_alias c ta = "\"" ++ ta ++ "\".\"" ++ c ++ "\"" := by
  unfold add_alias
  have hfil : c.data.filter (fun x => x ≠ '"') = c.data := by
    rw [List.filter_eq_self]
    intro a ha
    simp only [ne_eq, decide_eq_true_eq]
    intro hcontr
    exact hq (hcontr ▸ ha)
  have hcont : c.data.contains '.' = false := by
    rw [List.contains_eq_any_beq]
    rw [List.any_eq_false]
    intro a ha
    simp only [beq_iff_eq]
    intro hcontr
    exact hdot (hcontr ▸ ha)
  have hqc : startsWithChar '"' c = false := by
    unfold startsWithChar
    cases hc : c.data with
    | nil => simp
    | cons x xs =>
      simp only [List.head?_cons, Option.some.injEq, decide_eq_false_iff_not]
      intro hx
      exact hq (hx ▸ (hc ▸ List.mem_cons_self x xs))
  simp only [hfil]
  show (if c.data.contains '.' = true then _ else q ta ++ "." ++ q c) = _
  rw [hcont]
  simp only [Bool.false_eq_true, if_false]
  unfold q
  rw [hta, hqc]
  simp only [Bool.false_eq_true, if_false]
  apply String.ext
  simp [String.data_append]

/-- Normal form of one UPDATE SET assignment line for a clean column name. -/
theorem assignment_line_eq (c : String) (hdot : '.' ∉ c.data) (hq : '"' ∉ c.data) :
    MergeCDC.assignment_line c =
      "      " ++ "\"" ++ "t" ++ "\".\"" ++ c ++ "\"" ++ " = " ++ "\"" ++ "s" ++
        "\".\"" ++ c ++ "\"" := by
  unfold MergeCDC.assignment_line
  rw [add_alias_eq "t" c hdot hq (by decide), add_alias_eq "s" c hdot hq (by decide)]
  rw [show spaces 6 = "      " from by decide]
  apply String.ext
  simp [String.data_append, List.append_assoc]

/-- The assignment-line shape is injective in the column name. -/
theorem assign_shape_injective :
    Function.Injective (fun c : String =>
      "      " ++ "\"" ++ "t" ++ "\".\"" ++ c ++ "\"" ++ " = " ++ "\"" ++ "s" ++
        "\".\"" ++ c ++ "\"") := by
  intro x y hxy
  have hd := congrArg String.data hxy
  simp only [String.data_append, List.append_assoc] at hd
  have hlen := congrArg List.length hd
  simp only [List.length_append] at hlen
  have hxylen : x.data.length = y.data.length := by omega
  apply String.ext
  have h2 := List.append_cancel_left hd
  have h3 := List.append_cancel_left h2
  have h4 := List.append_cancel_left h3
  have h5 := List.append_cancel_left h4
  exact List.append_inj_left h5 hxylen

/-! ## Claim theorems -/

/-- Claim C3 (code bug evidence).  The claim states that for every table with
CDC strategy `sequence` the generated extraction SELECT contains the windowed
predicate `col >= last_sequence AND col < current_sequence`.  The code defines
`SelectCDC.sequence_where_template` for exactly that predicate but never
references it: `SelectCDC.select` only ever calls `timestamp_logic`, so the
SELECT generated for a sequence table with `last_sequence = 5` and job ceiling
`current_sequence = 10` carries no `where` clause and no `>=` comparison at
all, even though the watermark bookkeeping advances `last_sequence` to the
ceiling as if the window had been applied. -/
theorem claim_C3_sequence_predicate_never_generated :
    (process_table seqCtx "tickets" seqTable seqHist seqEnv ⟨2024, 5, 2, 10, 0, 0⟩ 10).sql
        = some seqSql ∧
    (process_table seqCtx "tickets" seqTable seqHist seqEnv ⟨2024, 5, 2, 10, 0, 0⟩ 10).hist.last_sequence
        = some 10 ∧
    strContains seqSql "where" = false ∧
    strContains seqSql ">=" = false := by
  refine ⟨by decide, by decide, by decide, by decide⟩

/-- Claim C9 counterexample.  The claim states that a `BlobStore` operation
invoked while the store is not connected reports failure after logging it
rather than raising an exception to the caller.  On the code, the
`ensure_connected` decorator logs the error and then raises `ConnectionError`
(the module test expects exactly that raise): at this concrete disconnected
store, `get` yields the raised exception, not a failure return value. -/
theorem claim_C9_counterexample_get_raises :
    BlobStore.get {} [("sales#000000007.zip", "data")] [] "work/f" "sales#000000007.zip"
      = Except.error "Resource not connected (): BlobStore.get()" := rfl

/-- Claim C9, amended: for every `BlobStore` operation (`get`, `put`,
`delete`, `list`, `clear`) invoked while the store is not connected, the
operation performs no storage mutation and raises a `ConnectionError` to the
caller after logging it (rather than returning a failure result).  In the
embedding the raise is the `Except.error` carrying the logged message; no
updated store is produced, so nothing is mutated. -/
theorem claim_C9_disconnected_operations_raise
    (bs : BlobStoreConn) (container local_fs : List (String × String))
    (target blob pattern : String) (h : bs.resource = none) :
    BlobStore.get bs container local_fs target blob =
      Except.error ("Resource not connected (" ++ bs.resource_name ++ "): BlobStore.get()") ∧
    BlobStore.put bs local_fs container target blob =
      Except.error ("Resource not connected (" ++ bs.resource_name ++ "): BlobStore.put()") ∧
    BlobStore.delete bs container blob =
      Except.error ("Resource not connected (" ++ bs.resource_name ++ "): BlobStore.delete()") ∧
    BlobStore.list bs container pattern =
      Except.error ("Resource not connected (" ++ bs.resource_name ++ "): BlobStore.list()") ∧
    BlobStore.clear bs container =
      Except.error ("Resource not connected (" ++ bs.resource_name ++ "): BlobStore.clear()") := by
  simp [BlobStore.get, BlobStore.put, BlobStore.delete, BlobStore.list, BlobStore.clear,
    ensure_connected, h, String.append_assoc]

/-- Witness for claim C9: the amended theorem applied at a concrete
disconnected store. -/
theorem claim_C9_disconnected_operations_raise_witness :
    (({} : BlobStoreConn).resource = none) ∧
    BlobStore.get {} [("b", "c")] [] "t" "b" =
      Except.error "Resource not connected (): BlobStore.get()" :=
  ⟨rfl, (claim_C9_disconnected_operations_raise {} [("b", "c")] [] "t" "b" "*" rfl).1⟩

/-- Claim C4.  For a table with natural-key columns and a duplicate-free
column list (of identifiers without embedded dots or quotes, as captured
column names are), the merge statement built by `MergeCDC` has as its match
condition the AND over every key column `k` of `"t"."k"="s"."k"`, and its
UPDATE SET clause assigns every non-key column (indeed every column) from
source to target exactly once: the list of assignment lines counts the
assignment of each column exactly once.  The third conjunct is the claim's
concrete instance for the key `(col1, col3)`. -/
theorem claim_C4_merge_match_and_update_set (t : TableObj) (nk : String)
    (hnodup : t.column_names.Nodup)
    (hclean : ∀ c ∈ t.column_names, '.' ∉ c.data ∧ '"' ∉ c.data)
    (hkeys : ∀ k ∈ split nk, '.' ∉ k.data ∧ '"' ∉ k.data) :
    MergeCDC.match_condition nk =
      joinSep " and " ((split nk).map fun k =>
        "\"" ++ "t" ++ "\".\"" ++ k ++ "\"" ++ "=" ++ "\"" ++ "s" ++ "\".\"" ++ k ++ "\"") ∧
    (∀ c ∈ t.column_names,
      (MergeCDC.column_assignment_lines t).count (MergeCDC.assignment_line c) = 1) ∧
    MergeCDC.match_condition "col1, col3" =
      "\"t\".\"col1\"=\"s\".\"col1\" and \"t\".\"col3\"=\"s\".\"col3\"" := by
  refine ⟨?_, ?_, by decide⟩
  · unfold MergeCDC.match_condition
    apply congrArg (joinSep " and ")
    apply List.map_congr_left
    intro k hk
    rw [add_alias_eq "t" k (hkeys k hk).1 (hkeys k hk).2 (by decide),
        add_alias_eq "s" k (hkeys k hk).1 (hkeys k hk).2 (by decide)]
    apply String.ext
    simp [String.data_append, List.append_assoc]
  · intro c hc
    unfold MergeCDC.column_assignment_lines
    rw [List.map_congr_left (fun x hx => assignment_line_eq x (hclean x hx).1 (hclean x hx).2),
        assignment_line_eq c (hclean c hc).1 (hclean c hc).2]
    rw [List.count_map_of_injective _ _ assign_shape_injective]
    exact List.count_eq_one_of_mem hnodup hc

/-- Witness for claim C4: the theorem applied to the staged four-column table
and the key `(col1, col3)` of the claim. -/
theorem claim_C4_merge_match_and_update_set_witness :
    MergeCDC.match_condition "col1, col3" =
      "\"t\".\"col1\"=\"s\".\"col1\" and \"t\".\"col3\"=\"s\".\"col3\"" ∧
    (MergeCDC.column_assignment_lines mergeTable).count
      (MergeCDC.assignment_line "col2") = 1 :=
  ⟨(claim_C4_merge_match_and_update_set mergeTable "col1, col3" (by decide) (by decide)
      (by decide)).2.2,
   (claim_C4_merge_match_and_update_set mergeTable "col1, col3" (by decide) (by decide)
      (by decide)).2.1 "col2" (by decide)⟩

/-- Claim C1.  For a table with CDC strategy `timestamp` and no prior
watermark that is actually extracted (not named `default`, not ignored or
drop-marked, found in the source, and not future-dated), the first capture
pulls the half-open window from the configured first timestamp (default
`1900-01-01`) up to the job snapshot time, the watermark is set to that
snapshot only after the extraction completes, and a second capture pulls the
window from exactly the first snapshot to the second: the end of the first
window equals the start of the second (no gap, no overlap). -/
theorem claim_C1_first_capture_windows_adjacent (ctx : CaptureCtx) (name : String)
    (t : TableObj) (env1 env2 : TableEnv) (hist0 : TableHistory) (ct1 ct2 : DT)
    (cs1 cs2 : Nat)
    (hname : name ≠ "default") (hig : t.ignore_table = false)
    (hdrop : t.drop_table = false)
    (hno : hist0.last_timestamp = none)
    (hsch1 : env1.table_schema.isSome) (hsch2 : env2.table_schema.isSome)
    (h1 : ¬ ct1 < t.first_timestamp.getD dt1900)
    (h2 : ¬ ct2 < ct1) :
    (process_table ctx name t hist0 env1 ct1 cs1).window =
        some (t.first_timestamp.getD dt1900, ct1) ∧
    (process_table ctx name t hist0 env1 ct1 cs1).hist.last_timestamp = some ct1 ∧
    (process_table ctx name t
        (process_table ctx name t hist0 env1 ct1 cs1).hist env2 ct2 cs2).window =
      some (ct1, ct2) ∧
    ((process_table ctx name t hist0 env1 ct1 cs1).window.map Prod.snd =
      (process_table ctx name t
        (process_table ctx name t hist0 env1 ct1 cs1).hist env2 ct2 cs2).window.map
        Prod.fst) := by
  obtain ⟨cols1, hc1⟩ := Option.isSome_iff_exists.mp hsch1
  obtain ⟨cols2, hc2⟩ := Option.isSome_iff_exists.mp hsch2
  have hr1 : (process_table ctx name t hist0 env1 ct1 cs1).window =
      some (t.first_timestamp.getD dt1900, ct1) ∧
      (process_table ctx name t hist0 env1 ct1 cs1).hist.last_timestamp = some ct1 := by
    by_cases hseq :
      ({ hist0 with
          last_timestamp := some (t.first_timestamp.getD dt1900) } : TableHistory).last_sequence
          = none ∨
      ({ hist0 with
          last_timestamp := some (t.first_timestamp.getD dt1900) } : TableHistory).last_sequence
          = some 0
    · simp [process_table, hname, hig, hdrop, hno, hc1, h1, hseq]
    · simp [process_table, hname, hig, hdrop, hno, hc1, h1, hseq]
  have hr2 : (process_table ctx name t
      (process_table ctx name t hist0 env1 ct1 cs1).hist env2 ct2 cs2).window =
      some (ct1, ct2) := by
    set hist1 := (process_table ctx name t hist0 env1 ct1 cs1).hist with hdef
    have hlt : hist1.last_timestamp = some ct1 := hr1.2
    by_cases hseq2 : hist1.last_sequence = none ∨ hist1.last_sequence = some 0
    · simp [process_table, hname, hig, hdrop, hlt, hc2, h2, hseq2]
    · simp [process_table, hname, hig, hdrop, hlt, hc2, h2, hseq2]
  refine ⟨hr1.1, hr1.2, hr2, ?_⟩
  rw [hr1.1, hr2]
  rfl

/-- Witness for claim C1: two concrete captures of the `orders` table with no
prior watermark and no configured first timestamp; the first window starts at
`1900-01-01` and ends at the first snapshot, where the second begins. -/
theorem claim_C1_first_capture_windows_adjacent_witness :
    (process_table tsCtx "orders" tsTable {} tsEnv ⟨2024, 5, 1, 12, 0, 0⟩ 0).window =
      some (dt1900, ⟨2024, 5, 1, 12, 0, 0⟩) ∧
    (process_table tsCtx "orders" tsTable
        (process_table tsCtx "orders" tsTable {} tsEnv ⟨2024, 5, 1, 12, 0, 0⟩ 0).hist
        tsEnv ⟨2024, 5, 2, 12, 0, 0⟩ 0).window =
      some (⟨2024, 5, 1, 12, 0, 0⟩, ⟨2024, 5, 2, 12, 0, 0⟩) :=
  ⟨(claim_C1_first_capture_windows_adjacent tsCtx "orders" tsTable tsEnv tsEnv {}
      ⟨2024, 5, 1, 12, 0, 0⟩ ⟨2024, 5, 2, 12, 0, 0⟩ 0 0 (by decide) rfl rfl rfl
      (by decide) (by decide) (by decide) (by decide)).1,
   (claim_C1_first_capture_windows_adjacent tsCtx "orders" tsTable tsEnv tsEnv {}
      ⟨2024, 5, 1, 12, 0, 0⟩ ⟨2024, 5, 2, 12, 0, 0⟩ 0 0 (by decide) rfl rfl rfl
      (by decide) (by decide) (by decide) (by decide)).2.2.1⟩

/-- Claim C2.  The persisted job history is written only by the
`job_history.save()` call that runs after a successful transfer: a completed
and transferred job persists exactly the in-memory post-extraction watermarks
with the job counter incremented by exactly 1, while a `--notransfer` run and
a run aborted by an unhandled exception before the watermark-advance step
leave the persisted state file exactly as it was. -/
theorem claim_C2_job_id_and_watermark_persistence (ctx : CaptureCtx)
    (tables : List (String × TableObj)) (envOf : String → TableEnv) (ct : DT)
    (fs : Option JobHistoryData) (f : JobHistoryData) (nt ab : Bool) :
    (∃ jh2, capture_main ctx tables envOf ct (some f) false false = some jh2 ∧
      jh2.job_id = f.job_id + 1 ∧
      jh2.tables =
        (run_extraction ctx envOf ct tables (JobHistory.load (some f))).tables) ∧
    capture_main ctx tables envOf ct fs true ab = fs ∧
    capture_main ctx tables envOf ct fs nt true = fs := by
  refine ⟨⟨JobHistory.save
      (run_extraction ctx envOf ct tables (JobHistory.load (some f))) false,
    rfl, ?_, rfl⟩, ?_, ?_⟩
  · show (run_extraction ctx envOf ct tables (JobHistory.load (some f))).job_id + 1 =
      f.job_id + 1
    rw [run_extraction_job_id]
    rfl
  · cases ab <;> rfl
  · cases nt <;> rfl

/-- Claim C5.  For a table whose extraction runs (prior watermark not
future-dated, table found), with configured batch size `B > 0` and a cursor
yielding `N` rows, capture writes exactly `ceil(N/B)` batch files named
`<table>#<batch-number, zero-padded to 4>.json`, every batch except possibly
the last holds exactly `B` rows, and the batch row counts sum to `N`.  The
second conjunct records the file naming; the last records that an
unconfigured batch size defaults to 250,000. -/
theorem claim_C5_batching (ctx : CaptureCtx) (name : String) (t : TableObj)
    (hist : TableHistory) (env : TableEnv) (ct lt : DT) (cseq B : Nat)
    (cols : List String)
    (hname : name ≠ "default") (hig : t.ignore_table = false)
    (hdrop : t.drop_table = false)
    (hl : hist.last_timestamp = some lt) (hct : ¬ ct < lt)
    (hsch : env.table_schema = some cols)
    (hB : ctx.batch_size_cfg = some B) (hBpos : 0 < B) :
    (process_table ctx name t hist env ct cseq).extracted = true ∧
    (process_table ctx name t hist env ct cseq).batch_files =
      (fetchBatches B env.rows).enum.map
        (fun p => (name ++ "#" ++ padZero 4 (p.1 + 1) ++ ".json", p.2.length)) ∧
    (process_table ctx name t hist env ct cseq).batch_files.length =
      (env.rows.length + B - 1) / B ∧
    (∀ n ∈ ((process_table ctx name t hist env ct cseq).batch_files.map Prod.snd).dropLast,
      n = B) ∧
    ((process_table ctx name t hist env ct cseq).batch_files.map Prod.snd).sum =
      env.rows.length ∧
    ({ ctx with batch_size_cfg := none } : CaptureCtx).batch_size_cfg.getD 250000 =
      250000 := by
  have hmain : (process_table ctx name t hist env ct cseq).extracted = true ∧
      (process_table ctx name t hist env ct cseq).batch_files =
        (fetchBatches B env.rows).enum.map
          (fun p => (name ++ "#" ++ padZero 4 (p.1 + 1) ++ ".json", p.2.length)) := by
    by_cases hseq : hist.last_sequence = none ∨ hist.last_sequence = some 0
    · constructor <;> simp [process_table, hname, hig, hdrop, hl, hct, hsch, hB, hseq]
    · constructor <;> simp [process_table, hname, hig, hdrop, hl, hct, hsch, hB, hseq]
  have hsnd : (process_table ctx name t hist env ct cseq).batch_files.map Prod.snd =
      (fetchBatches B env.rows).map List.length := by
    rw [hmain.2, List.map_map]
    show (fetchBatches B env.rows).enum.map (List.length ∘ Prod.snd) = _
    rw [← List.map_map, List.enum_map_snd]
  refine ⟨hmain.1, hmain.2, ?_, ?_, ?_, rfl⟩
  · rw [hmain.2]
    simp only [List.length_map, List.enum_length]
    exact fetchBatchesAux_length B hBpos _ _ le_rfl
  · intro n hn
    rw [hsnd, ← List.map_dropLast] at hn
    obtain ⟨b, hb, hbn⟩ := List.mem_map.mp hn
    rw [← hbn]
    exact fetchBatchesAux_dropLast B hBpos _ _ le_rfl b hb
  · rw [hsnd]
    exact fetchBatchesAux_sum B hBpos _ _ le_rfl

/-- Witness for claim C5: five rows under batch size 2 yield three batch
files named `orders#0001.json` to `orders#0003.json` holding 2, 2 and 1
rows. -/
theorem claim_C5_batching_witness :
    (process_table c5Ctx "orders" tsTable c5Hist c5Env ⟨2024, 5, 2, 0, 0, 0⟩ 0).batch_files.length = 3 ∧
    ((process_table c5Ctx "orders" tsTable c5Hist c5Env ⟨2024, 5, 2, 0, 0, 0⟩ 0).batch_files.map
      Prod.snd).sum = 5 ∧
    (process_table c5Ctx "orders" tsTable c5Hist c5Env ⟨2024, 5, 2, 0, 0, 0⟩ 0).batch_files =
      [("orders#0001.json", 2), ("orders#0002.json", 2), ("orders#0003.json", 1)] :=
  ⟨(claim_C5_batching c5Ctx "orders" tsTable c5Hist c5Env ⟨2024, 5, 2, 0, 0, 0⟩
      ⟨2024, 5, 1, 0, 0, 0⟩ 0 2 ["id", "ts"] (by decide) rfl rfl rfl (by decide) rfl rfl
      (by decide)).2.2.1,
   (claim_C5_batching c5Ctx "orders" tsTable c5Hist c5Env ⟨2024, 5, 2, 0, 0, 0⟩
      ⟨2024, 5, 1, 0, 0, 0⟩ 0 2 ["id", "ts"] (by decide) rfl rfl rfl (by decide) rfl rfl
      (by decide)).2.2.2.2.1,
   by decide⟩

/-- Claim C6.  Archiving a landing package named
`<dataset>#<job_id zero-padded to 9 digits>.zip` (here with the name
decomposition and the job-id parse recorded as hypotheses, discharged at the
concrete instance by the witness) moves the file: it becomes present in
archive storage under `<dataset>/<package_name>`, absent from landing
storage, and exactly one `stage_arrival_queue` row is added, carrying the
package name and the integer parsed from it. -/
theorem claim_C6_archive_move_and_queue (st : ArchiveState)
    (stat_rows : String → List String) (dataset name content : String) (jid : Nat)
    (hname : name = dataset ++ "#" ++ padZero 9 jid ++ ".zip")
    (hsplit : (splitChar '#' name).headD name = dataset)
    (hparse : parse_job_id name = some jid)
    (hland : lookupA st.landing name = some content)
    (hq : st.arrival_queue.filter (fun r => r.1 = name) = []) :
    lookupA (archive_capture_file st stat_rows name).archive (dataset ++ "/" ++ name) =
      some content ∧
    lookupA (archive_capture_file st stat_rows name).landing name = none ∧
    (archive_capture_file st stat_rows name).arrival_queue.filter
      (fun r => r.1 = name) = [(name, jid)] := by
  unfold archive_capture_file update_stat_log update_stage_arrival_queue
  simp only [hland, lookupA_upsertA_self, hsplit, hparse]
  refine ⟨?_, ?_, ?_⟩
  · simp only [lookupA_upsertA_self]
  · simp only [lookupA_removeA_self]
  · rw [List.filter_append]
    rw [hq]
    simp

/-- Witness for claim C6: archiving `sales#000000007.zip` from a concrete
landing store; the job id parses to 7. -/
theorem claim_C6_archive_move_and_queue_witness :
    lookupA (archive_capture_file archSt (fun _ => []) "sales#000000007.zip").archive
      "sales/sales#000000007.zip" = some "zipbytes" ∧
    lookupA (archive_capture_file archSt (fun _ => []) "sales#000000007.zip").landing
      "sales#000000007.zip" = none ∧
    (archive_capture_file archSt (fun _ => []) "sales#000000007.zip").arrival_queue.filter
      (fun r => r.1 = "sales#000000007.zip") = [("sales#000000007.zip", 7)] :=
  claim_C6_archive_move_and_queue archSt (fun _ => []) "sales" "sales#000000007.zip"
    "zipbytes" 7 (by decide) (by decide) (by decide) (by decide) rfl

/-- Claim C7 counterexample.  The claim says that at staging every table with
`cdc=none` (or no CDC strategy) is dropped and fully reloaded, and every
`cdc=timestamp` table whose target exists is never dropped and receives a
merge.  Three concrete artifacts refute it as stated: a `cdc=timestamp`
artifact with an empty `.pk` file is dropped (first conjunct); a drop-marked
artifact with no CDC strategy is dropped but never recreated or reloaded
(second conjunct); a `cdc=timestamp` artifact with an existing target whose
second batch is empty never receives the merge statement (third conjunct: the
full action list holds no `execSql`). -/
theorem claim_C7_counterexample_reload_vs_merge :
    StageAction.dropTable "sales" "orders" ∈
      (stage_table "sales" ["orders"] tsArtifactNoPk).1 ∧
    (stage_table "sales" ["olddata"] dropArtifact).1 =
      [StageAction.dropTable "sales" "olddata"] ∧
    (stage_table "sales" ["orders"] emptyBatchArtifact).1 =
      [StageAction.dropTable "sales" "_orders",
       StageAction.createTable "sales" "_orders",
       StageAction.bulkInsert "sales" "_orders" [["1", "x"]],
       StageAction.dropTable "sales" "_orders"] := by
  refine ⟨by decide, by decide, by decide⟩

/-- Claim C7, amended.  At staging, for a processed table artifact (schema
file present, not marked for drop): if it has no CDC strategy, `cdc=none`, or
an empty primary key, the target table is dropped and fully reloaded — it is
recreated and every non-empty batch is bulk-inserted into it; if it has a
keyed CDC strategy and a non-empty key, the target table is never dropped,
and when every batch file is non-empty the merge statement runs against the
target. -/
theorem claim_C7_stage_reload_vs_merge_amended (dataset : String) (db : List String)
    (a : StageArtifact)
    (hschema : a.schemaPresent = true) (hdropf : a.obj.drop_table = false) :
    ((a.obj.cdc = "" ∨ strLower a.obj.cdc = "none" ∨ strTrim a.pk = "") →
      (stage_table dataset db a).1 =
        [StageAction.dropTable dataset a.name, StageAction.createTable dataset a.name] ++
          (a.batches.filter fun rows => rows ≠ []).map
            (StageAction.bulkInsert dataset a.name)) ∧
    (¬ (a.obj.cdc = "" ∨ strLower a.obj.cdc = "none" ∨ strTrim a.pk = "") →
      (StageAction.dropTable dataset a.name ∉ (stage_table dataset db a).1) ∧
      ((∀ b ∈ a.batches, b ≠ []) →
        StageAction.execSql (MergeCDC.merge
            { a.obj with
              table_name := a.name,
              column_names :=
                MergeCDC.extend_columns a.schema_columns extended_definitions }
            dataset (strTrim a.pk)) ∈ (stage_table dataset db a).1)) := by
  constructor
  · intro hcond
    simp [stage_table, hschema, hdropf, hcond]
  · intro hcond
    constructor
    · intro hmem
      have hne : ¬ ("_" ++ a.name = a.name) := underscore_ne a.name
      have hne2 : ¬ (a.name = "_" ++ a.name) := fun h => hne h.symm
      by_cases hdb : a.name ∈ db <;>
        simp [stage_table, hschema, hdropf, if_neg hcond, hdb, hne, hne2] at hmem
    · intro hall
      have hmerged : (a.batches.all fun rows => rows ≠ []) = true := by
        rw [List.all_eq_true]
        intro x hx
        simpa using hall x hx
      simp [stage_table, hschema, hdropf, if_neg hcond, hmerged]
      intro x hx
      exact hall x hx

/-- Witness for the amended claim C7: a keyed `cdc=timestamp` artifact with
only non-empty batches receives the merge statement. -/
theorem claim_C7_stage_reload_vs_merge_amended_witness :
    StageAction.execSql (MergeCDC.merge
        { mergeArtifact.obj with
          table_name := mergeArtifact.name,
          column_names :=
            MergeCDC.extend_columns mergeArtifact.schema_columns extended_definitions }
        "sales" (strTrim mergeArtifact.pk)) ∈
      (stage_table "sales" [] mergeArtifact).1 :=
  ((claim_C7_stage_reload_vs_merge_amended "sales" [] mergeArtifact rfl rfl).2
    (by decide)).2 (by decide)

/-- Claim C8 counterexample.  The claim says a drop-marked artifact stops the
processing of only that table and every other artifact in the package is
still processed.  In this concrete two-artifact package, the drop-marked
first artifact ends the whole run: the full action list holds nothing for the
`zdata` artifact that follows — it is neither dropped, nor recreated, nor
loaded. -/
theorem claim_C8_counterexample_drop_stops_package :
    (stage_file "sales" [] [dropArtifact, plainArtifact]).1 =
      [StageAction.createSchema "sales", StageAction.dropTable "sales" "olddata"] := by
  decide

/-- Claim C8, amended.  When a drop-marked table artifact is reached, the
stage applier drops that target table and stops processing the entire
remaining package (the source `return` leaves `stage_file`, matching its own
comment "drop table and exit"): the artifacts before it are processed
normally, and the artifacts after it contribute nothing in this run. -/
theorem claim_C8_drop_stops_package_amended (dataset : String) (db : List String)
    (pre post : List StageArtifact) (d : StageArtifact)
    (hpre : ∀ a ∈ pre, ¬ (a.schemaPresent = true ∧ a.obj.drop_table = true))
    (hd : d.schemaPresent = true) (hdrop : d.obj.drop_table = true) :
    stage_file dataset db (pre ++ d :: post) = stage_file dataset db (pre ++ [d]) ∧
    (stage_file dataset db (pre ++ [d])).1 =
      StageAction.createSchema dataset ::
        ((stage_file_loop dataset db pre).1 ++
          [StageAction.dropTable dataset d.name]) := by
  have h := stage_file_loop_append_stop dataset pre db post d hpre hd hdrop
  constructor
  · unfold stage_file
    rw [h.1]
  · rw [stage_file_actions, h.2]

/-- Witness for the amended claim C8: in the package
`[plainArtifact, dropArtifact, mergeArtifact]` the trailing artifact is never
reached. -/
theorem claim_C8_drop_stops_package_amended_witness :
    stage_file "sales" [] ([plainArtifact] ++ dropArtifact :: [mergeArtifact]) =
      stage_file "sales" [] ([plainArtifact] ++ [dropArtifact]) :=
  (claim_C8_drop_stops_package_amended "sales" [] [plainArtifact] [mergeArtifact]
    dropArtifact (by decide) rfl rfl).1

/-- Claim C10.  For a keyed CDC table artifact in a staged package, if any
batch file deserializes to an empty row list, the batch loop breaks early and
the merge statement never runs for that table (the `for ... else` clause is
skipped): the actions for the artifact are exactly the optional target
creation, the temp-table cycle, the bulk loads of the batches before the
first empty one, and the final temp-table drop — the loaded rows are
discarded with the temp table, which is absent from the database afterwards.
The loop continues with the rest of the package, and the queue row of the
package being staged is still deleted by `process_next_file_to_stage`
afterwards as if the table had been applied. -/
theorem claim_C10_empty_batch_skips_merge (dataset : String) (db : List String)
    (a : StageArtifact)
    (hschema : a.schemaPresent = true) (hdropf : a.obj.drop_table = false)
    (hcdc : ¬ (a.obj.cdc = "" ∨ strLower a.obj.cdc = "none" ∨ strTrim a.pk = ""))
    (hempty : [] ∈ a.batches) :
    (stage_table dataset db a).1 =
      (if a.name ∈ db then [] else [StageAction.createTable dataset a.name]) ++
        [StageAction.dropTable dataset ("_" ++ a.name),
         StageAction.createTable dataset ("_" ++ a.name)] ++
        (a.batches.takeWhile fun rows => rows ≠ []).map
          (StageAction.bulkInsert dataset ("_" ++ a.name)) ++
        [StageAction.dropTable dataset ("_" ++ a.name)] ∧
    (∀ sql, StageAction.execSql sql ∉ (stage_table dataset db a).1) ∧
    (stage_table dataset db a).2 = true ∧
    ("_" ++ a.name) ∉ applyStageActions db (stage_table dataset db a).1 ∧
    (∀ (packages : String → List StageArtifact) (arrival : List (String × Nat))
        (pending : List String) (row : String) (k jid : Nat)
        (rest : List (String × Nat)),
        arrival = (row, k) :: rest → stage_job_id row = some jid →
        (process_next_file_to_stage packages db arrival pending).processed = true ∧
        (row, k) ∉ (process_next_file_to_stage packages db arrival pending).arrival) := by
  have hnotall : (a.batches.all fun rows => rows ≠ []) = false := by
    rw [List.all_eq_false]
    exact ⟨[], hempty, by simp⟩
  have hacts : (stage_table dataset db a).1 =
      (if a.name ∈ db then [] else [StageAction.createTable dataset a.name]) ++
        [StageAction.dropTable dataset ("_" ++ a.name),
         StageAction.createTable dataset ("_" ++ a.name)] ++
        (a.batches.takeWhile fun rows => rows ≠ []).map
          (StageAction.bulkInsert dataset ("_" ++ a.name)) ++
        [StageAction.dropTable dataset ("_" ++ a.name)] := by
    by_cases hdb : a.name ∈ db <;>
      simp [stage_table, hschema, hdropf, if_neg hcdc, hnotall, hdb, hempty,
        List.append_assoc]
  refine ⟨hacts, ?_, ?_, ?_, ?_⟩
  · intro sql hmem
    rw [hacts] at hmem
    by_cases hdb : a.name ∈ db <;> simp [hdb] at hmem
  · exact stage_table_continues dataset db a (by simp [hdropf])
  · rw [hacts]
    unfold applyStageActions
    rw [List.foldl_append]
    simp only [List.foldl_cons, List.foldl_nil, applyStageAction]
    intro hmem
    rw [List.mem_filter] at hmem
    simp at hmem
  · intro packages arrival pending row k jid rest harr hjid
    subst harr
    constructor
    · simp [process_next_file_to_stage, hjid]
    · simp [process_next_file_to_stage, hjid]

/-- Witness for claim C10: the artifact whose second batch is empty skips the
merge, continues the loop, and the arrival-queue head is still removed. -/
theorem claim_C10_empty_batch_skips_merge_witness :
    (StageAction.execSql "merge" ∉ (stage_table "sales" [] emptyBatchArtifact).1) ∧
    (stage_table "sales" [] emptyBatchArtifact).2 = true ∧
    (process_next_file_to_stage (fun _ => [emptyBatchArtifact]) []
        [("sales#000000007.zip", 7)] []).processed = true ∧
    ("sales#000000007.zip", 7) ∉
      (process_next_file_to_stage (fun _ => [emptyBatchArtifact]) []
        [("sales#000000007.zip", 7)] []).arrival :=
  ⟨(claim_C10_empty_batch_skips_merge "sales" [] emptyBatchArtifact rfl rfl (by decide)
      (by decide)).2.1 "merge",
   (claim_C10_empty_batch_skips_merge "sales" [] emptyBatchArtifact rfl rfl (by decide)
      (by decide)).2.2.1,
   ((claim_C10_empty_batch_skips_merge "sales" [] emptyBatchArtifact rfl rfl (by decide)
      (by decide)).2.2.2.2 (fun _ => [emptyBatchArtifact]) [("sales#000000007.zip", 7)]
      [] "sales#000000007.zip" 7 7 [] rfl (by decide)).1,
   ((claim_C10_empty_batch_skips_merge "sales" [] emptyBatchArtifact rfl rfl (by decide)
      (by decide)).2.2.2.2 (fun _ => [emptyBatchArtifact]) [("sales#000000007.zip", 7)]
      [] "sales#000000007.zip" 7 7 [] rfl (by decide)).2⟩

end Udp
